import Mathlib

/-!
Verification development for the IDIIDO repository.

The repository ships a resilient request harness (retry/fallback across a
ranked model list, streaming reassembly, sandboxed tool execution) packaged
from a hidden `.claude` directory by `setup.py`.  The packaging declaration
is embedded directly from `src/setup.py`; the harness, client and tool
executor are modelled from the specification, since their source lives in
the `.claude` package that is not part of the visible source tree.
-/

set_option autoImplicit false

namespace IDIIDO

/-! ## Packaging declaration (embedded from `src/setup.py`) -/

/-- The keyword arguments passed to `setuptools.setup` in `src/setup.py`. -/
structure SetupArgs where
  name : String
  version : String
  packages : List String
  package_dir : List (String × String)
  install_requires : List String
  python_requires : String
  deriving Repr, DecidableEq

/-- The single `setup(...)` call of `src/setup.py`, field for field. -/
def setupCall : SetupArgs :=
  { name := "claude"
    version := "1.0.0"
    packages := ["claude"]
    package_dir := [("claude", ".claude")]
    install_requires := ["python-dotenv", "requests"]
    python_requires := ">=3.8" }

/-! ## Configuration model

Modelled from the spec: RouterConfig is an ordered, non-empty sequence of
model identifiers plus a caps value (per-attempt timeout, maximum attempts,
total timeout); constructing one from an empty model list fails validation,
and a loaded config is immutable. -/

/-- Modelled from the spec: the three timing caps, positive integers
(per-attempt timeout seconds, maximum attempts, total timeout seconds). -/
structure Caps where
  attemptTimeout : Nat
  maxAttempts : Nat
  totalTimeout : Nat
  deriving Repr, DecidableEq

/-- Modelled from the spec: ordered model list (preference order,
first = primary) plus caps.  Immutable once loaded. -/
structure RouterConfig where
  models : List String
  caps : Caps
  deriving Repr, DecidableEq

/-- Modelled from the spec: constructing a `RouterConfig` from malformed
input (empty model list) fails validation; otherwise the list is kept
as given, in preference order. -/
def RouterConfig.load (models : List String) (caps : Caps) : Option RouterConfig :=
  if models.isEmpty then none else some ⟨models, caps⟩

/-! ## Error taxonomy

Modelled from the spec: `RetryableError` (reason + optional status code),
`NonRetryableError` (message + optional status code), `TotalTimeoutError`
(elapsed seconds), all sub-kinds of one root harness-error type. -/

/-- Modelled from the spec: the harness error taxonomy. -/
inductive HarnessError where
  | retryable (reason : String) (status : Option Nat)
  | nonRetryable (msg : String) (status : Option Nat)
  | totalTimeout (elapsed_s : Nat)
  deriving Repr, DecidableEq

/-! ## Completion results, attempts and telemetry -/

/-- Modelled from the spec: the normalized completion result; for the
harness-level claims only the assembled text content matters. -/
structure CompletionResult where
  content : String
  deriving Repr, DecidableEq

/-- Modelled from the spec: the outcome of one single-shot client call
against one model — either a materialized result or a classified error. -/
inductive AttemptResult where
  | success (res : CompletionResult)
  | retryErr (reason : String) (status : Option Nat)
  | nonRetryErr (msg : String) (status : Option Nat)
  deriving Repr, DecidableEq

/-- Modelled from the spec: one append-only telemetry record per API call:
model attempted, attempt ordinal, success flag, outcome tag
(`ok` | `retryable_error` | `non_retryable_error`). -/
structure TelemetryRecord where
  model : String
  attempt : Nat
  ok : Bool
  outcome : String
  deriving Repr, DecidableEq

/-! ## Harness (orchestrator)

Modelled from the spec (§4.3): the model list is walked in order, attempt
ordinal = position + 1.  Before each attempt: if the ordinal exceeds
`maxAttempts`, stop with the last retryable error (or an aggregate
non-retryable error when none exists); if elapsed time already exceeds
`totalTimeout`, fail with `TotalTimeoutError` carrying the elapsed time —
before spending the attempt.  On success, record an `ok` telemetry record
and return the result.  On a retryable error, record telemetry and advance
to the next model.  On a non-retryable error, record telemetry and re-raise
immediately.  The single-shot client is the oracle `send` (attempt ordinal
and model to outcome); the wall clock is the oracle `clock` (elapsed
seconds observed at the pre-attempt check for a given ordinal). -/

/-- Modelled from the spec: the error surfaced when the model list or the
attempt budget is exhausted — the last retryable error when one exists,
otherwise an aggregate non-retryable error. -/
def exhaustedError (lastRetryable : Option HarnessError) : HarnessError :=
  lastRetryable.getD (.nonRetryable "all model attempts failed" none)

/-- Modelled from the spec: the fallback-and-retry loop of `request()`.
Returns the telemetry records written (appended to `log`) and either the
successful completion result or the surfaced harness error. -/
def runAttempts (send : Nat → String → AttemptResult) (clock : Nat → Nat)
    (maxAttempts totalTimeout : Nat) :
    List String → Nat → Option HarnessError → List TelemetryRecord →
    List TelemetryRecord × Except HarnessError CompletionResult
  | [], _, lastR, log => (log, .error (exhaustedError lastR))
  | m :: rest, ordinal, lastR, log =>
    if maxAttempts < ordinal then
      (log, .error (exhaustedError lastR))
    else if totalTimeout < clock ordinal then
      (log, .error (.totalTimeout (clock ordinal)))
    else
      match send ordinal m with
      | .success res => (log ++ [⟨m, ordinal, true, "ok"⟩], .ok res)
      | .retryErr reason status =>
          runAttempts send clock maxAttempts totalTimeout rest (ordinal + 1)
            (some (.retryable reason status)) (log ++ [⟨m, ordinal, false, "retryable_error"⟩])
      | .nonRetryErr msg status =>
          (log ++ [⟨m, ordinal, false, "non_retryable_error"⟩],
            .error (.nonRetryable msg status))

/-- Modelled from the spec: `request()` walks the config's model list from
the first model, ordinal 1, with an empty telemetry log and no prior
retryable error. -/
def request (cfg : RouterConfig) (send : Nat → String → AttemptResult)
    (clock : Nat → Nat) :
    List TelemetryRecord × Except HarnessError CompletionResult :=
  runAttempts send clock cfg.caps.maxAttempts cfg.caps.totalTimeout cfg.models 1 none []

/-! ## API client: HTTP failure classification

Modelled from the spec (§4.4 bullet): status 429 and any 5xx are
`RetryableError` carrying the status code; 400/401/403/404/422 and, as a
catch-all, any other 4xx are `NonRetryableError`. -/

/-- Modelled from the spec: the classified error the client raises for an
HTTP failure status, `none` for statuses outside the failure ranges the
classification covers. -/
def classifyHttpStatus (status : Nat) : Option HarnessError :=
  if status = 429 then
    some (.retryable "rate limited" (some status))
  else if 500 ≤ status ∧ status ≤ 599 then
    some (.retryable "server error" (some status))
  else if status = 400 ∨ status = 401 ∨ status = 403 ∨ status = 404 ∨ status = 422 then
    some (.nonRetryable "client error" (some status))
  else if 400 ≤ status ∧ status ≤ 499 then
    some (.nonRetryable "client error" (some status))
  else
    none

/-! ## API client: streaming path

Modelled from the spec (§4.1 streaming path): the stream is a sequence of
`data:` frames; each is either the sentinel `[DONE]` (successful
termination) or a JSON event.  An event carrying an `error` field is
surfaced as `NonRetryableError`; an event carrying a `usage` block is
captured for the final result; otherwise the event's content fragment is
appended to an accumulator and delivered to the per-token callback.  A
stream ending without the sentinel is `RetryableError` (reason
"stream ended prematurely").  The per-token callback is modelled as the
list of fragments delivered to it, in delivery order. -/

/-- Modelled from the spec: one parsed streaming frame — the `[DONE]`
sentinel or an event with optional error text, optional usage block and
optional incremental content fragment. -/
inductive StreamFrame where
  | done
  | event (err : Option String) (usage : Option Nat) (content : Option String)
  deriving Repr, DecidableEq

/-- Whether a frame is the `[DONE]` sentinel. -/
def StreamFrame.isDone : StreamFrame → Bool
  | .done => true
  | .event _ _ _ => false

/-- Whether a frame is an event carrying an `error` field. -/
def StreamFrame.hasError : StreamFrame → Bool
  | .event (some _) _ _ => true
  | _ => false

/-- Modelled from the spec: the materialized result of a streamed call —
the assembled content, the fragments delivered to the per-token callback
in order, and the captured usage block, if any. -/
structure StreamOutcome where
  content : String
  callbacks : List String
  usage : Option Nat
  deriving Repr, DecidableEq

/-- Modelled from the spec: the client's streaming read loop over the
remaining frames, with the content accumulator, the callback deliveries so
far and the captured usage block. -/
def readStream : List StreamFrame → String → List String → Option Nat →
    Except HarnessError StreamOutcome
  | [], _, _, _ => .error (.retryable "stream ended prematurely" none)
  | .done :: _, acc, cbs, u => .ok ⟨acc, cbs, u⟩
  | .event (some e) _ _ :: _, _, _, _ => .error (.nonRetryable e none)
  | .event none usage content :: rest, acc, cbs, u =>
    let u' := if usage.isSome then usage else u
    match content with
    | some c => readStream rest (acc ++ c) (cbs ++ [c]) u'
    | none => readStream rest acc cbs u'

/-- Modelled from the spec: a full streamed call starts with an empty
accumulator, no deliveries and no usage block. -/
def streamRequest (frames : List StreamFrame) : Except HarnessError StreamOutcome :=
  readStream frames "" [] none

/-! ## Tool-call extraction and the tool loop

Modelled from the spec (§4.2, §4.3): after a successful attempt the
harness inspects the latest result for embedded tool calls; if none, it
returns the result.  Otherwise each call is executed, its result appended
to the conversation as a synthetic `tool`-role message, and the model is
re-queried, up to a fixed bound of iterations; reaching the bound returns
the last result as-is.  Extraction, re-query and execution are oracles; the
loop also reports how many re-queries it performed. -/

/-- Modelled from the spec: one message of the conversation. -/
structure ChatMessage where
  role : String
  content : String
  deriving Repr, DecidableEq

/-- Modelled from the spec: a parsed tool call — tool name plus named
string parameters. -/
structure ToolCall where
  name : String
  params : List (String × String)
  deriving Repr, DecidableEq

/-- Modelled from the spec: the bounded tool-use loop.  `extract` scans
content for tool calls, `execute` runs one call to its textual result,
`query` re-queries the model on the extended conversation.  Returns the
final result and the number of iterations (re-queries) performed. -/
def toolLoop (extract : String → List ToolCall)
    (query : List ChatMessage → CompletionResult)
    (execute : ToolCall → String) :
    Nat → CompletionResult → List ChatMessage → CompletionResult × Nat
  | 0, res, _ => (res, 0)
  | fuel + 1, res, conv =>
    if extract res.content = [] then (res, 0)
    else
      let conv' := conv ++ (extract res.content).map (fun c => ⟨"tool", execute c⟩)
      let next := toolLoop extract query execute fuel (query conv') conv'
      (next.1, next.2 + 1)

/-! ## Sandboxed file tools: path containment

Modelled from the spec (§4.2): every file-path parameter is resolved
relative to the fixed working-directory root, normalized, and must resolve
to a location inside that root; a path that would escape the root fails
with `NonRetryableError` before any file I/O occurs.  Paths are modelled
as component lists; normalization resolves `.`, empty components and `..`
segments, failing when a `..` would climb above the filesystem root. -/

/-- Splits the characters of a raw path on `/` separators. -/
def splitSlash : List Char → List Char → List (List Char)
  | [], cur => [cur.reverse]
  | c :: rest, cur =>
    if c = '/' then cur.reverse :: splitSlash rest []
    else splitSlash rest (c :: cur)

/-- The components of a raw path string. -/
def pathComponents (s : String) : List String :=
  (splitSlash s.data []).map String.mk

/-- Modelled from the spec: path normalization over components, carried
out against a stack of kept components; `.` and empty components vanish,
`..` pops, and popping an empty stack means the path climbs above the
filesystem root, which fails. -/
def normalizeComponents : List String → List String → Option (List String)
  | [], stack => some stack.reverse
  | c :: rest, stack =>
    if c = "" ∨ c = "." then normalizeComponents rest stack
    else if c = ".." then
      match stack with
      | [] => none
      | _ :: s => normalizeComponents rest s
    else normalizeComponents rest (c :: stack)

/-- Modelled from the spec: resolve a raw path parameter against the
working-directory root, normalize, and require the result to stay inside
the root; `none` when the path escapes. -/
def resolvePath (root : List String) (path : String) : Option (List String) :=
  (normalizeComponents (root ++ pathComponents path) []).bind
    (fun comps => if comps.take root.length = root then some comps else none)

/-- A file I/O action the sandboxed executor performs. -/
inductive ToolIOAction where
  | readFile (p : List String)
  | writeFile (p : List String) (content : String)
  deriving Repr, DecidableEq

/-- The file operation a tool call requests. -/
inductive FileOp where
  | read
  | write (content : String)
  deriving Repr, DecidableEq

/-- Modelled from the spec: sandboxed execution of a file tool call.
Returns the resolved path (or the containment error) together with the
file I/O actions performed; on a containment violation no I/O happens. -/
def executeFileTool (root : List String) (path : String) (op : FileOp) :
    Except HarnessError (List String) × List ToolIOAction :=
  match resolvePath root path with
  | none => (.error (.nonRetryable "path escapes working-directory root" none), [])
  | some p =>
    match op with
    | .read => (.ok p, [.readFile p])
    | .write content => (.ok p, [.writeFile p content])

end IDIIDO

namespace IDIIDO

/-! ## Theorems for the packaging claims -/

/-- C9: the packaging declaration installs the importable package name
`claude` from the hidden source directory `.claude`, with distribution name
`claude` and version `1.0.0`, and declares no other package. -/
theorem C9_packaging :
    setupCall.name = "claude" ∧ setupCall.version = "1.0.0" ∧
    setupCall.packages = ["claude"] ∧
    setupCall.package_dir = [("claude", ".claude")] :=
  ⟨rfl, rfl, rfl, rfl⟩

/-- C10: the packaging declaration pins exactly the two runtime dependencies
`python-dotenv` and `requests`, and requires Python at least 3.8; nothing
else is declared. -/
theorem C10_dependencies :
    setupCall.install_requires = ["python-dotenv", "requests"] ∧
    setupCall.python_requires = ">=3.8" :=
  ⟨rfl, rfl⟩

/-! ## Theorems for the harness claims -/

/-- C2: if the attempt against the first of at least two models fails with
a non-retryable error, `request()` re-raises that error immediately,
exactly one telemetry record is written (outcome `non_retryable_error`),
and no attempt is made against any subsequent model. -/
theorem C2_nonretryable_abort
    (cfg : RouterConfig) (m0 m1 : String) (restm : List String)
    (send : Nat → String → AttemptResult) (clock : Nat → Nat)
    (msg : String) (status : Option Nat)
    (hmodels : cfg.models = m0 :: m1 :: restm)
    (hmax : 1 ≤ cfg.caps.maxAttempts)
    (hclock : clock 1 ≤ cfg.caps.totalTimeout)
    (hsend : send 1 m0 = .nonRetryErr msg status) :
    request cfg send clock
      = ([⟨m0, 1, false, "non_retryable_error"⟩], .error (.nonRetryable msg status)) := by
  unfold request
  rw [hmodels, runAttempts, if_neg (by omega), if_neg (by omega), hsend]
  rfl

/-- Witness for C2 at the concrete config of the spec's end-to-end
scenario shape, with a 400-classified failure on the first model. -/
theorem C2_nonretryable_abort_witness :
    request ⟨["a", "b"], ⟨30, 3, 300⟩⟩
        (fun _ _ => .nonRetryErr "bad request" (some 400)) (fun _ => 0)
      = ([⟨"a", 1, false, "non_retryable_error"⟩],
          .error (.nonRetryable "bad request" (some 400))) :=
  C2_nonretryable_abort ⟨["a", "b"], ⟨30, 3, 300⟩⟩ "a" "b" []
    (fun _ _ => .nonRetryErr "bad request" (some 400)) (fun _ => 0)
    "bad request" (some 400) rfl (by decide) (by decide) rfl

/-- C4: if, at the pre-attempt check, the observed elapsed time already
exceeds the total timeout while models and attempt budget remain, the
attempt is never started (no telemetry is written) and the loop fails with
`TotalTimeoutError` carrying exactly the observed elapsed time. -/
theorem C4_total_timeout_precheck
    (send : Nat → String → AttemptResult) (clock : Nat → Nat)
    (maxAttempts totalTimeout : Nat) (m : String) (rest : List String)
    (o : Nat) (lastR : Option HarnessError) (log : List TelemetryRecord)
    (hmax : o ≤ maxAttempts)
    (hclock : totalTimeout < clock o) :
    runAttempts send clock maxAttempts totalTimeout (m :: rest) o lastR log
      = (log, .error (.totalTimeout (clock o))) := by
  rw [runAttempts, if_neg (by omega), if_pos hclock]

/-- Witness for C4: the clock reads 301 seconds against a 300-second total
budget before the first attempt, which is therefore never started. -/
theorem C4_total_timeout_precheck_witness :
    runAttempts (fun _ _ => .success ⟨"done"⟩) (fun _ => 301) 7 300 ["a", "b"] 1 none []
      = ([], .error (.totalTimeout 301)) :=
  C4_total_timeout_precheck (fun _ _ => .success ⟨"done"⟩) (fun _ => 301) 7 300
    "a" ["b"] 1 none [] (by decide) (by decide)

/-- C6: HTTP failure classification — 429 and every 5xx status raise a
retryable error carrying the status code, every other 4xx status raises a
non-retryable error carrying the status code, and no status in the
400–599 range is left unclassified. -/
theorem C6_http_classification (s : Nat) :
    (s = 429 → classifyHttpStatus s = some (.retryable "rate limited" (some s))) ∧
    (500 ≤ s → s ≤ 599 → classifyHttpStatus s = some (.retryable "server error" (some s))) ∧
    (400 ≤ s → s ≤ 499 → s ≠ 429 →
      classifyHttpStatus s = some (.nonRetryable "client error" (some s))) ∧
    (400 ≤ s → s ≤ 599 → (classifyHttpStatus s).isSome = true) := by
  have h5 : ∀ (h1 : 500 ≤ s) (h2 : s ≤ 599),
      classifyHttpStatus s = some (.retryable "server error" (some s)) := by
    intro h1 h2
    unfold classifyHttpStatus
    rw [if_neg (by omega), if_pos ⟨h1, h2⟩]
  have h4 : ∀ (h1 : 400 ≤ s) (h2 : s ≤ 499) (h3 : s ≠ 429),
      classifyHttpStatus s = some (.nonRetryable "client error" (some s)) := by
    intro h1 h2 h3
    unfold classifyHttpStatus
    rw [if_neg h3, if_neg (by omega)]
    by_cases hl : s = 400 ∨ s = 401 ∨ s = 403 ∨ s = 404 ∨ s = 422
    · rw [if_pos hl]
    · rw [if_neg hl, if_pos ⟨h1, h2⟩]
  refine ⟨fun h => by unfold classifyHttpStatus; rw [if_pos h], h5, h4, fun h1 h2 => ?_⟩
  by_cases h429 : s = 429
  · unfold classifyHttpStatus; rw [if_pos h429]; rfl
  · by_cases hlow : s ≤ 499
    · rw [h4 h1 hlow h429]; rfl
    · rw [h5 (by omega) h2]; rfl

/-- Witness for C6 at concrete statuses 429, 503, 404 and 450. -/
theorem C6_http_classification_witness :
    classifyHttpStatus 429 = some (.retryable "rate limited" (some 429)) ∧
    classifyHttpStatus 503 = some (.retryable "server error" (some 503)) ∧
    classifyHttpStatus 404 = some (.nonRetryable "client error" (some 404)) ∧
    classifyHttpStatus 450 = some (.nonRetryable "client error" (some 450)) ∧
    (classifyHttpStatus 599).isSome = true :=
  ⟨(C6_http_classification 429).1 rfl,
   (C6_http_classification 503).2.1 (by decide) (by decide),
   (C6_http_classification 404).2.2.1 (by decide) (by decide) (by decide),
   (C6_http_classification 450).2.2.1 (by decide) (by decide) (by decide),
   (C6_http_classification 599).2.2.2 (by decide) (by decide)⟩

/-- C8: constructing a `RouterConfig` from an empty model list fails
validation, and every successfully constructed config keeps the given
non-empty model list, in order, together with its caps. -/
theorem C8_config_validation :
    (∀ caps : Caps, RouterConfig.load [] caps = none) ∧
    (∀ (ms : List String) (caps : Caps) (cfg : RouterConfig),
      RouterConfig.load ms caps = some cfg →
      cfg.models = ms ∧ cfg.models ≠ [] ∧ cfg.caps = caps) := by
  refine ⟨fun caps => rfl, fun ms caps cfg h => ?_⟩
  unfold RouterConfig.load at h
  by_cases hms : ms.isEmpty
  · rw [if_pos hms] at h; cases h
  · rw [if_neg hms] at h
    cases h
    refine ⟨rfl, ?_, rfl⟩
    simpa using hms

/-- Witness for C8: the empty list is rejected and a singleton list loads
into a config carrying exactly that list. -/
theorem C8_config_validation_witness :
    RouterConfig.load [] ⟨30, 3, 300⟩ = none ∧
    ((⟨["a"], ⟨30, 3, 300⟩⟩ : RouterConfig).models = ["a"] ∧
      (⟨["a"], ⟨30, 3, 300⟩⟩ : RouterConfig).models ≠ [] ∧
      (⟨["a"], ⟨30, 3, 300⟩⟩ : RouterConfig).caps = ⟨30, 3, 300⟩) :=
  ⟨C8_config_validation.1 ⟨30, 3, 300⟩,
   C8_config_validation.2 ["a"] ⟨30, 3, 300⟩ ⟨["a"], ⟨30, 3, 300⟩⟩ rfl⟩

/-- C3: a file-path parameter whose normalization against the
working-directory root does not land inside the root is rejected with
`NonRetryableError` before any file I/O action is performed; a path whose
normalization stays inside the root is accepted with the resolved path. -/
theorem C3_path_containment (root : List String) (path : String) (op : FileOp) :
    ((∀ comps, normalizeComponents (root ++ pathComponents path) [] = some comps →
        comps.take root.length ≠ root) →
      executeFileTool root path op
        = (.error (.nonRetryable "path escapes working-directory root" none), [])) ∧
    (∀ comps, normalizeComponents (root ++ pathComponents path) [] = some comps →
      comps.take root.length = root →
      (executeFileTool root path op).1 = .ok comps) := by
  constructor
  · intro h
    have hres : resolvePath root path = none := by
      unfold resolvePath
      cases hn : normalizeComponents (root ++ pathComponents path) [] with
      | none => rfl
      | some comps =>
        show (if comps.take root.length = root then some comps else none) = none
        exact if_neg (h comps hn)
    unfold executeFileTool
    rw [hres]
  · intro comps hn htake
    have hres : resolvePath root path = some comps := by
      unfold resolvePath
      rw [hn]
      show (if comps.take root.length = root then some comps else none) = some comps
      exact if_pos htake
    unfold executeFileTool
    rw [hres]
    cases op <;> rfl

/-- Witness for C3 at the spec's two concrete examples: `../outside.txt`
escapes the root `workdir` and is rejected with no I/O, while
`notes/output.txt` resolves under the root and is accepted. -/
theorem C3_path_containment_witness :
    executeFileTool ["workdir"] "../outside.txt" .read
      = (.error (.nonRetryable "path escapes working-directory root" none), []) ∧
    (executeFileTool ["workdir"] "notes/output.txt" .read).1
      = .ok ["workdir", "notes", "output.txt"] := by
  refine ⟨(C3_path_containment ["workdir"] "../outside.txt" .read).1 ?_,
    (C3_path_containment ["workdir"] "notes/output.txt" .read).2
      ["workdir", "notes", "output.txt"] (by decide) (by decide)⟩
  intro comps h
  have hc : normalizeComponents (["workdir"] ++ pathComponents "../outside.txt") []
      = some ["outside.txt"] := by decide
  rw [hc] at h
  cases h
  decide

/-- C5: a stream of content events followed by the `[DONE]` sentinel
delivers exactly those fragments, in order, to the per-token callback and
assembles their concatenation as the final content; a stream with no
sentinel (and no error event cutting it short) fails with `RetryableError`
reason "stream ended prematurely". -/
theorem C5_streaming (fragments : List String) (frames : List StreamFrame)
    (hclean : ∀ f ∈ frames, f.isDone = false ∧ f.hasError = false) :
    streamRequest (fragments.map (fun c => StreamFrame.event none none (some c)) ++ [.done])
      = .ok ⟨String.join fragments, fragments, none⟩ ∧
    streamRequest frames = .error (.retryable "stream ended prematurely" none) := by
  have hread : ∀ (fs : List String) (acc : String) (cbs : List String) (u : Option Nat),
      readStream (fs.map (fun c => StreamFrame.event none none (some c)) ++ [.done]) acc cbs u
        = .ok ⟨fs.foldl (· ++ ·) acc, cbs ++ fs, u⟩ := by
    intro fs
    induction fs with
    | nil => intro acc cbs u; simp [readStream]
    | cons c cs ih =>
      intro acc cbs u
      simp only [List.map_cons, List.cons_append, readStream, Option.isSome,
        Bool.false_eq_true, if_false, List.foldl_cons]
      simpa using ih (acc ++ c) (cbs ++ [c]) u
  have hnodone : ∀ (gs : List StreamFrame),
      (∀ f ∈ gs, f.isDone = false ∧ f.hasError = false) →
      ∀ (acc : String) (cbs : List String) (u : Option Nat),
        readStream gs acc cbs u = .error (.retryable "stream ended prematurely" none) := by
    intro gs
    induction gs with
    | nil => intro _ acc cbs u; rfl
    | cons f rest ih =>
      intro hg acc cbs u
      have hrest : ∀ f ∈ rest, f.isDone = false ∧ f.hasError = false :=
        fun f hf => hg f (List.mem_cons_of_mem _ hf)
      match f with
      | .done =>
        have := (hg .done (List.mem_cons_self _ _)).1
        simp [StreamFrame.isDone] at this
      | .event (some e) usage content =>
        have := (hg _ (List.mem_cons_self _ _)).2
        simp [StreamFrame.hasError] at this
      | .event none usage content =>
        cases content with
        | some c => simp only [readStream]; exact ih hrest _ _ _
        | none => simp only [readStream]; exact ih hrest _ _ _
  refine ⟨?_, hnodone frames hclean "" [] none⟩
  rw [streamRequest, hread fragments "" [] none]
  rfl

/-- Witness for C5 at the spec's example: fragments `hello` and ` world`
assemble to `hello world` with both fragments delivered in order, and a
sentinel-free stream fails as transient. -/
theorem C5_streaming_witness :
    streamRequest ((["hello", " world"].map (fun c => StreamFrame.event none none (some c)))
        ++ [.done])
      = .ok ⟨String.join ["hello", " world"], ["hello", " world"], none⟩ ∧
    String.join ["hello", " world"] = "hello world" ∧
    streamRequest [.event none none (some "x")]
      = .error (.retryable "stream ended prematurely" none) := by
  have h := C5_streaming ["hello", " world"] [.event none none (some "x")] (by decide)
  exact ⟨h.1, by decide, h.2⟩

/-- C7: the tool-use loop performs at most the fixed bound of iterations,
terminates immediately (returning the result unchanged, zero iterations)
as soon as the latest result contains no tool calls, and when the final
result still contains tool calls the full bound was spent and the last
result is returned as-is rather than an error being raised. -/
theorem C7_tool_loop_bounded (extract : String → List ToolCall)
    (query : List ChatMessage → CompletionResult) (execute : ToolCall → String) :
    (∀ (fuel : Nat) (res : CompletionResult) (conv : List ChatMessage),
      extract res.content = [] → toolLoop extract query execute fuel res conv = (res, 0)) ∧
    (∀ (fuel : Nat) (res : CompletionResult) (conv : List ChatMessage),
      (toolLoop extract query execute fuel res conv).2 ≤ fuel) ∧
    (∀ (fuel : Nat) (res : CompletionResult) (conv : List ChatMessage),
      extract (toolLoop extract query execute fuel res conv).1.content ≠ [] →
      (toolLoop extract query execute fuel res conv).2 = fuel) := by
  refine ⟨?_, ?_, ?_⟩
  · intro fuel res conv h
    cases fuel with
    | zero => rfl
    | succ k => simp [toolLoop, h]
  · intro fuel
    induction fuel with
    | zero => intro res conv; simp [toolLoop]
    | succ k ih =>
      intro res conv
      by_cases hx : extract res.content = []
      · simp [toolLoop, hx]
      · simp only [toolLoop, if_neg hx]
        have hle := ih (query (conv ++ (extract res.content).map (fun c => ⟨"tool", execute c⟩)))
          (conv ++ (extract res.content).map (fun c => ⟨"tool", execute c⟩))
        omega
  · intro fuel
    induction fuel with
    | zero => intro res conv _; rfl
    | succ k ih =>
      intro res conv h
      by_cases hx : extract res.content = []
      · simp [toolLoop, hx] at h
      · simp only [toolLoop, if_neg hx] at h ⊢
        have := ih (query (conv ++ (extract res.content).map (fun c => ⟨"tool", execute c⟩)))
          (conv ++ (extract res.content).map (fun c => ⟨"tool", execute c⟩)) h
        omega

/-- Helper for C1: walking a non-empty model list from ordinal `o`, where
every attempt before the last fails retryably and the last succeeds, both
within the attempt and time budgets, returns the success result and
appends one telemetry record per attempt, at consecutive ordinals, with
outcome `retryable_error` everywhere but the final `ok` record. -/
theorem runAttempts_retry_then_success
    (send : Nat → String → AttemptResult) (clock : Nat → Nat)
    (maxAttempts totalTimeout : Nat)
    (res : CompletionResult) (reason : String) (status : Option Nat) :
    ∀ (models : List String) (o : Nat) (lastR : Option HarnessError)
      (log : List TelemetryRecord),
      models ≠ [] →
      (∀ i m, i < o + models.length - 1 → send i m = .retryErr reason status) →
      (∀ m, send (o + models.length - 1) m = .success res) →
      o + models.length - 1 ≤ maxAttempts →
      (∀ i, clock i ≤ totalTimeout) →
      ∃ newlog,
        runAttempts send clock maxAttempts totalTimeout models o lastR log
          = (log ++ newlog, .ok res) ∧
        newlog.length = models.length ∧
        ∀ j r, newlog[j]? = some r →
          r.attempt = o + j ∧
          r.outcome = (if j + 1 = models.length then "ok" else "retryable_error") := by
  intro models
  induction models with
  | nil => intro o lastR log hne; exact absurd rfl hne
  | cons m rest ih =>
    intro o lastR log _ hfail hsucc hbound hclock
    rcases eq_or_ne rest [] with hrest | hrest
    · subst hrest
      have hm : send o m = .success res := by
        have h1 : o + [m].length - 1 = o := by simp
        have h2 := hsucc m
        rwa [h1] at h2
      refine ⟨[⟨m, o, true, "ok"⟩], ?_, rfl, ?_⟩
      · rw [runAttempts, if_neg (by simp only [List.length_cons, List.length_nil] at hbound; omega),
          if_neg (by have := hclock o; omega)]
        simp only [hm]
      · intro j r hj
        cases j with
        | zero =>
          simp only [List.getElem?_cons_zero, Option.some.injEq] at hj
          subst hj
          exact ⟨by simp, by simp⟩
        | succ j' => simp at hj
    · have hlen : 1 ≤ rest.length := by
        cases rest with
        | nil => exact absurd rfl hrest
        | cons a b => simp
      have hm : send o m = .retryErr reason status := by
        apply hfail
        simp only [List.length_cons]
        omega
      obtain ⟨newlog', heq, hlen', hprops⟩ :=
        ih (o + 1) (some (.retryable reason status))
          (log ++ [⟨m, o, false, "retryable_error"⟩]) hrest
          (fun i mm hi => hfail i mm (by
            simp only [List.length_cons]
            omega))
          (fun mm => by
            have h1 : o + 1 + rest.length - 1 = o + (m :: rest).length - 1 := by
              simp only [List.length_cons]
              omega
            rw [h1]
            exact hsucc mm)
          (by simp only [List.length_cons] at hbound ⊢; omega)
          hclock
      refine ⟨⟨m, o, false, "retryable_error"⟩ :: newlog', ?_, by simp [hlen'], ?_⟩
      · rw [runAttempts, if_neg (by simp only [List.length_cons] at hbound; omega),
          if_neg (by have := hclock o; omega)]
        simp only [hm]
        rw [heq]
        simp
      · intro j r hj
        cases j with
        | zero =>
          simp only [List.getElem?_cons_zero, Option.some.injEq] at hj
          subst hj
          refine ⟨by simp, ?_⟩
          rw [if_neg (by simp only [List.length_cons]; omega)]
        | succ j' =>
          simp only [List.getElem?_cons_succ] at hj
          obtain ⟨ha, ho⟩ := hprops j' r hj
          refine ⟨by omega, ?_⟩
          rw [ho]
          by_cases hcond : j' + 1 = rest.length
          · rw [if_pos hcond, if_pos (by simp only [List.length_cons]; omega)]
          · rw [if_neg hcond, if_neg (by simp only [List.length_cons]; omega)]

/-- C1: with `N` models and max-attempts at least `N`, a run of `N − 1`
retryable failures followed by a success on the `N`-th model returns the
successful completion result and writes exactly `N` telemetry records, one
per attempt ordinal, all `retryable_error` but the last, which is `ok`. -/
theorem C1_fallback_retry_success
    (cfg : RouterConfig) (N : Nat)
    (send : Nat → String → AttemptResult) (clock : Nat → Nat)
    (res : CompletionResult) (reason : String) (status : Option Nat)
    (hN : cfg.models.length = N) (hpos : 0 < N)
    (hmax : N ≤ cfg.caps.maxAttempts)
    (hfail : ∀ i m, i < N → send i m = .retryErr reason status)
    (hsucc : ∀ m, send N m = .success res)
    (hclock : ∀ i, clock i ≤ cfg.caps.totalTimeout) :
    (request cfg send clock).2 = .ok res ∧
    (request cfg send clock).1.length = N ∧
    ((request cfg send clock).1.getLast?).map TelemetryRecord.outcome = some "ok" ∧
    ∀ j r, (request cfg send clock).1[j]? = some r →
      r.attempt = j + 1 ∧
      r.outcome = (if j + 1 = N then "ok" else "retryable_error") := by
  have hne : cfg.models ≠ [] := by
    intro hc
    rw [hc] at hN
    simp at hN
    omega
  have hidx : 1 + cfg.models.length - 1 = N := by omega
  obtain ⟨newlog, heq, hlen, hprops⟩ :=
    runAttempts_retry_then_success send clock cfg.caps.maxAttempts cfg.caps.totalTimeout
      res reason status cfg.models 1 none [] hne
      (fun i m hi => hfail i m (by omega))
      (fun m => by rw [hidx]; exact hsucc m)
      (by omega) hclock
  have hreq : request cfg send clock = (newlog, .ok res) := by
    unfold request
    rw [heq]
    simp
  have hlenN : newlog.length = N := hlen.trans hN
  refine ⟨by rw [hreq], by rw [hreq]; exact hlenN, ?_, ?_⟩
  · rw [hreq]
    simp only [List.getLast?_eq_getElem?]
    have hlt : newlog.length - 1 < newlog.length := by omega
    rw [List.getElem?_eq_getElem hlt]
    obtain ⟨ha, ho⟩ := hprops (newlog.length - 1) (newlog[newlog.length - 1])
      (List.getElem?_eq_getElem hlt)
    rw [if_pos (by omega)] at ho
    simp [ho]
  · intro j r hj
    rw [hreq] at hj
    obtain ⟨ha, ho⟩ := hprops j r hj
    refine ⟨by omega, ?_⟩
    rw [ho]
    by_cases hcond : j + 1 = cfg.models.length
    · rw [if_pos hcond, if_pos (by omega)]
    · rw [if_neg hcond, if_neg (by omega)]

/-- Witness for C1 at the spec's end-to-end scenario: two models, a
rate-limit failure on the first, success on the second, max-attempts 7. -/
theorem C1_fallback_retry_success_witness :
    (request ⟨["a", "b"], ⟨30, 7, 300⟩⟩
        (fun i _ => if i < 2 then .retryErr "rate limited" (some 429) else .success ⟨"ok"⟩)
        (fun _ => 0)).2 = .ok ⟨"ok"⟩ ∧
    (request ⟨["a", "b"], ⟨30, 7, 300⟩⟩
        (fun i _ => if i < 2 then .retryErr "rate limited" (some 429) else .success ⟨"ok"⟩)
        (fun _ => 0)).1.length = 2 ∧
    ((request ⟨["a", "b"], ⟨30, 7, 300⟩⟩
        (fun i _ => if i < 2 then .retryErr "rate limited" (some 429) else .success ⟨"ok"⟩)
        (fun _ => 0)).1.getLast?).map TelemetryRecord.outcome = some "ok" := by
  have h := C1_fallback_retry_success ⟨["a", "b"], ⟨30, 7, 300⟩⟩ 2
    (fun i _ => if i < 2 then .retryErr "rate limited" (some 429) else .success ⟨"ok"⟩)
    (fun _ => 0) ⟨"ok"⟩ "rate limited" (some 429)
    rfl (by decide) (by decide)
    (fun i m hi => by simp [hi])
    (fun m => by simp)
    (fun _ => Nat.zero_le _)
  exact ⟨h.1, h.2.1, h.2.2.1⟩

/-- Witness for C7: with no tool calls the loop returns the result
unchanged in zero iterations; with tool calls always present the loop
spends exactly its bound of two iterations and returns the last result. -/
theorem C7_tool_loop_bounded_witness :
    toolLoop (fun _ => ([] : List ToolCall)) (fun _ => ⟨"answer"⟩) (fun _ => "out")
        3 ⟨"hi"⟩ [] = (⟨"hi"⟩, 0) ∧
    (toolLoop (fun _ => [⟨"bash", [("command", "ls")]⟩]) (fun _ => ⟨"again"⟩) (fun _ => "out")
        2 ⟨"go"⟩ []).2 = 2 := by
  constructor
  · exact (C7_tool_loop_bounded (fun _ => ([] : List ToolCall))
      (fun _ => ⟨"answer"⟩) (fun _ => "out")).1 3 ⟨"hi"⟩ [] rfl
  · exact (C7_tool_loop_bounded (fun _ => [⟨"bash", [("command", "ls")]⟩])
      (fun _ => ⟨"again"⟩) (fun _ => "out")).2.2 2 ⟨"go"⟩ [] (by simp)

end IDIIDO
